import Mathlib

/-!
Verification of the Newton's-method root finder (`newton's_method.py`).

The solver `newtons_method` is embedded over the rationals: the Python
floats become `ℚ`, the interactive replacement-guess prompts become a
list of parse results (`some q` for a string that `float(...)` accepts,
`none` for one that raises `ValueError`), and the three possible returns
of the Python function become the `Outcome` type (the Python `None`
return on invalid replacement input is `Outcome.aborted`).

The symbolic pipeline of `main` (sympy parse with the `local_dict`
bindings for `ln`/`log`, `sp.diff`, `lambdify` with `my_log`) is embedded
as an expression tree `Newton.Expr` evaluated over `ℝ`, with sympy's
standard differentiation rules as `Newton.diff` and the numeric binding
of the generated `log` calls going through `Newton.my_log`.
-/

namespace Newton

/-- Result of the Python function `newtons_method`:
`(x_new, i + 1)` on convergence, `(guess, max_iter)` when the `for`
loop exhausts, and `None` (here `aborted`) when the replacement guess
fails to parse. -/
inductive Outcome where
  | converged (root : ℚ) (iterations : ℕ)
  | maxIterationsReached (approxRoot : ℚ) (iterations : ℕ)
  | aborted
  deriving DecidableEq, Repr

/-- Result of one attempt (one run of the Python `for i in range(max_iter)`
loop): convergence with the 1-indexed count `i + 1`, a degenerate
derivative hit at the current guess (the `break` path, before consuming
the replacement input), or exhaustion of the range with the last guess. -/
inductive InnerResult where
  | converged (root : ℚ) (count : ℕ)
  | degenerate (atGuess : ℚ)
  | exhausted (lastGuess : ℚ)
  deriving DecidableEq, Repr

/-- The body of `for i in range(max_iter)` in `newtons_method`, with `i`
the current 0-based loop index and the final argument the number of
iterations still available (`max_iter - i`).  Each iteration evaluates
`f` and `f'` at `guess`, checks `abs(fprime_val) < derivative_threshold`,
otherwise forms `x_new = guess - f_val / fprime_val`, checks
`abs(x_new - guess) < tol`, and otherwise continues with `guess = x_new`. -/
def attemptAux (func dfunc : ℚ → ℚ) (tol derivative_threshold : ℚ)
    (guess : ℚ) (i : ℕ) : ℕ → InnerResult
  | 0 => InnerResult.exhausted guess
  | n + 1 =>
    if |dfunc guess| < derivative_threshold then
      InnerResult.degenerate guess
    else
      if |(guess - func guess / dfunc guess) - guess| < tol then
        InnerResult.converged (guess - func guess / dfunc guess) (i + 1)
      else
        attemptAux func dfunc tol derivative_threshold
          (guess - func guess / dfunc guess) (i + 1) n

/-- The Python function `newtons_method(func, dfunc, x0, tol, max_iter,
derivative_threshold)`.  The `while True` outer loop is recursion over
`inputs`, the successive results of `float(input(...))` at the
degenerate-derivative prompt: `some g` is a replacement guess that parsed,
`none` is a `ValueError` (the function returns `None`, i.e. `aborted`);
an empty list means no replacement is supplied, also `aborted`. -/
def newtons_method (func dfunc : ℚ → ℚ) (x0 tol : ℚ) (max_iter : ℕ)
    (derivative_threshold : ℚ) : List (Option ℚ) → Outcome
  | [] =>
    match attemptAux func dfunc tol derivative_threshold x0 0 max_iter with
    | InnerResult.converged r k => Outcome.converged r k
    | InnerResult.exhausted g => Outcome.maxIterationsReached g max_iter
    | InnerResult.degenerate _ => Outcome.aborted
  | none :: _ =>
    match attemptAux func dfunc tol derivative_threshold x0 0 max_iter with
    | InnerResult.converged r k => Outcome.converged r k
    | InnerResult.exhausted g => Outcome.maxIterationsReached g max_iter
    | InnerResult.degenerate _ => Outcome.aborted
  | some g2 :: rest =>
    match attemptAux func dfunc tol derivative_threshold x0 0 max_iter with
    | InnerResult.converged r k => Outcome.converged r k
    | InnerResult.exhausted g => Outcome.maxIterationsReached g max_iter
    | InnerResult.degenerate _ =>
      newtons_method func dfunc g2 tol max_iter derivative_threshold rest

/-- Variant of `attemptAux` in which the Newton-step division
`f_val / fprime_val` is guarded: it returns `none` whenever the division
would have a zero divisor, and otherwise behaves as `attemptAux`.  Used
to state that the division-by-zero branch is unreachable. -/
def attemptAuxChecked (func dfunc : ℚ → ℚ) (tol derivative_threshold : ℚ)
    (guess : ℚ) (i : ℕ) : ℕ → Option InnerResult
  | 0 => some (InnerResult.exhausted guess)
  | n + 1 =>
    if |dfunc guess| < derivative_threshold then
      some (InnerResult.degenerate guess)
    else if dfunc guess = 0 then
      none
    else
      if |(guess - func guess / dfunc guess) - guess| < tol then
        some (InnerResult.converged (guess - func guess / dfunc guess) (i + 1))
      else
        attemptAuxChecked func dfunc tol derivative_threshold
          (guess - func guess / dfunc guess) (i + 1) n

/-- `newtons_method` with the guarded division of `attemptAuxChecked`:
`none` exactly when some executed Newton step divides by zero. -/
def newtons_method_checked (func dfunc : ℚ → ℚ) (x0 tol : ℚ) (max_iter : ℕ)
    (derivative_threshold : ℚ) : List (Option ℚ) → Option Outcome
  | [] =>
    match attemptAuxChecked func dfunc tol derivative_threshold x0 0 max_iter with
    | none => none
    | some (InnerResult.converged r k) => some (Outcome.converged r k)
    | some (InnerResult.exhausted g) => some (Outcome.maxIterationsReached g max_iter)
    | some (InnerResult.degenerate _) => some Outcome.aborted
  | none :: _ =>
    match attemptAuxChecked func dfunc tol derivative_threshold x0 0 max_iter with
    | none => none
    | some (InnerResult.converged r k) => some (Outcome.converged r k)
    | some (InnerResult.exhausted g) => some (Outcome.maxIterationsReached g max_iter)
    | some (InnerResult.degenerate _) => some Outcome.aborted
  | some g2 :: rest =>
    match attemptAuxChecked func dfunc tol derivative_threshold x0 0 max_iter with
    | none => none
    | some (InnerResult.converged r k) => some (Outcome.converged r k)
    | some (InnerResult.exhausted g) => some (Outcome.maxIterationsReached g max_iter)
    | some (InnerResult.degenerate _) =>
      newtons_method_checked func dfunc g2 tol max_iter derivative_threshold rest

/-- The root post-processing in `main`: a complex result `root` (a pair
real/imaginary part) is collapsed to its real part exactly when
`abs(root.imag) < 1e-10`; otherwise it is reported unchanged. -/
def postprocess_root (root : ℚ × ℚ) : ℚ ⊕ ℚ × ℚ :=
  if |root.2| < 1 / 10 ^ 10 then Sum.inl root.1 else Sum.inr root

/-- Symbolic expression trees, as produced by `parse_expr` from the
formula text: the declared variable `x`, rational literals, sums,
differences, products, quotients, and sympy's (natural) `log` node.
Sums/differences/products/quotients and `log` are the node kinds the two
logarithm bindings and their derivatives need. -/
inductive Expr where
  | var
  | const (q : ℚ)
  | add (a b : Expr)
  | sub (a b : Expr)
  | mul (a b : Expr)
  | div (a b : Expr)
  | log (a : Expr)
  deriving DecidableEq, Repr

/-- The numeric log binding passed to `lambdify` via
`modules=[\x7b"log": my_log\x7d, "numpy"]`:
`my_log(x, base=None)` is the natural logarithm, `my_log(x, 10)` the
base-10 logarithm, and any other base gives `log x / log base`. -/
noncomputable def my_log (x : ℝ) (base : Option ℝ) : ℝ :=
  match base with
  | none => Real.log x
  | some b => if b = 10 then Real.logb 10 x else Real.log x / Real.log b

/-- Numeric evaluation of a compiled expression at the value of `x`.
A `log` node compiles to a call of the bound `my_log` with no base
argument (lambdify prints sympy's natural `log` as `log(u)`). -/
noncomputable def eval (t : Expr) (x : ℝ) : ℝ :=
  match t with
  | Expr.var => x
  | Expr.const q => (q : ℝ)
  | Expr.add a b => eval a x + eval b x
  | Expr.sub a b => eval a x - eval b x
  | Expr.mul a b => eval a x * eval b x
  | Expr.div a b => eval a x / eval b x
  | Expr.log a => my_log (eval a x) none

/-- The `local_dict` binding `"ln": sp.log`: a formula `ln(g)` parses to
sympy's natural-log node applied to `g`. -/
def parseLn (g : Expr) : Expr := Expr.log g

/-- The `local_dict` binding `"log": lambda arg: sp.log(arg, 10)`: sympy
rewrites the two-argument `log(arg, 10)` to `log(arg)/log(10)`, so a
formula `log(g)` parses to that quotient of natural-log nodes. -/
def parseLog (g : Expr) : Expr :=
  Expr.div (Expr.log g) (Expr.log (Expr.const 10))

/-- `sp.diff` on the embedded node kinds: the standard sum, difference,
product and quotient rules, derivative `1` of the variable, `0` of a
literal, and sympy's rule `log(u)' = u'/u` with the chain rule. -/
def diff (t : Expr) : Expr :=
  match t with
  | Expr.var => Expr.const 1
  | Expr.const _ => Expr.const 0
  | Expr.add a b => Expr.add (diff a) (diff b)
  | Expr.sub a b => Expr.sub (diff a) (diff b)
  | Expr.mul a b => Expr.add (Expr.mul (diff a) b) (Expr.mul a (diff b))
  | Expr.div a b =>
    Expr.div (Expr.sub (Expr.mul (diff a) b) (Expr.mul a (diff b)))
      (Expr.mul b b)
  | Expr.log a => Expr.div (diff a) a

/-! ### Helper lemmas about the outer loop of `newtons_method` -/

theorem newtons_method_of_converged (func dfunc : ℚ → ℚ) (x0 tol : ℚ) (m : ℕ)
    (thr : ℚ) (inputs : List (Option ℚ)) (r : ℚ) (k : ℕ)
    (h : attemptAux func dfunc tol thr x0 0 m = InnerResult.converged r k) :
    newtons_method func dfunc x0 tol m thr inputs = Outcome.converged r k := by
  cases inputs with
  | nil => simp [newtons_method, h]
  | cons a rest => cases a <;> simp [newtons_method, h]

theorem newtons_method_of_exhausted (func dfunc : ℚ → ℚ) (x0 tol : ℚ) (m : ℕ)
    (thr : ℚ) (inputs : List (Option ℚ)) (g : ℚ)
    (h : attemptAux func dfunc tol thr x0 0 m = InnerResult.exhausted g) :
    newtons_method func dfunc x0 tol m thr inputs =
      Outcome.maxIterationsReached g m := by
  cases inputs with
  | nil => simp [newtons_method, h]
  | cons a rest => cases a <;> simp [newtons_method, h]

theorem newtons_method_of_degenerate (func dfunc : ℚ → ℚ) (x0 tol : ℚ) (m : ℕ)
    (thr g g2 : ℚ) (rest : List (Option ℚ))
    (h : attemptAux func dfunc tol thr x0 0 m = InnerResult.degenerate g) :
    newtons_method func dfunc x0 tol m thr [] = Outcome.aborted ∧
    newtons_method func dfunc x0 tol m thr (none :: rest) = Outcome.aborted ∧
    newtons_method func dfunc x0 tol m thr (some g2 :: rest) =
      newtons_method func dfunc g2 tol m thr rest := by
  refine ⟨?_, ?_, ?_⟩ <;> simp [newtons_method, h]

/-- The guarded attempt agrees with the unguarded one whenever the
derivative threshold is positive: the degeneracy check screens out every
zero divisor before the Newton step divides. -/
theorem attemptAuxChecked_eq (func dfunc : ℚ → ℚ) (tol thr : ℚ) (hthr : 0 < thr) :
    ∀ (n : ℕ) (guess : ℚ) (i : ℕ),
      attemptAuxChecked func dfunc tol thr guess i n =
        some (attemptAux func dfunc tol thr guess i n) := by
  intro n
  induction n with
  | zero => intro guess i; simp [attemptAux, attemptAuxChecked]
  | succ n ih =>
    intro guess i
    by_cases h1 : |dfunc guess| < thr
    · simp [attemptAux, attemptAuxChecked, h1]
    · have hz : dfunc guess ≠ 0 := by
        intro h0
        exact h1 (by rw [h0, abs_zero]; exact hthr)
      by_cases h2 : |(guess - func guess / dfunc guess) - guess| < tol
      · simp only [attemptAux, attemptAuxChecked]
        rw [if_neg h1, if_neg h1, if_neg hz, if_pos h2, if_pos h2]
      · simp only [attemptAux, attemptAuxChecked]
        rw [if_neg h1, if_neg h1, if_neg hz, if_neg h2, if_neg h2]
        exact ih _ _

/-- C1: whenever an iteration reaches the Newton step (the derivative is
not below the threshold) and the step `x_new = guess - f(guess)/f'(guess)`
satisfies `|x_new - guess| < tol`, the attempt returns `Converged` with
root exactly `x_new` and 1-indexed count `i + 1` for loop index `i`, and
the solver reports a converged attempt unchanged. -/
theorem newton_step_convergence
    (func dfunc : ℚ → ℚ) (tol thr guess : ℚ) (i n : ℕ)
    (hthr : 0 < thr)
    (hnd : ¬ |dfunc guess| < thr)
    (hconv : |(guess - func guess / dfunc guess) - guess| < tol) :
    attemptAux func dfunc tol thr guess i (n + 1) =
      InnerResult.converged (guess - func guess / dfunc guess) (i + 1) ∧
    ∀ (x0 : ℚ) (m : ℕ) (inputs : List (Option ℚ)) (r : ℚ) (k : ℕ),
      attemptAux func dfunc tol thr x0 0 m = InnerResult.converged r k →
      newtons_method func dfunc x0 tol m thr inputs = Outcome.converged r k := by
  constructor
  · simp only [attemptAux]
    rw [if_neg hnd, if_pos hconv]
  · intro x0 m inputs r k h
    exact newtons_method_of_converged func dfunc x0 tol m thr inputs r k h

/-- C1 witness: `f = 0`, `f' = 1`, guess `3`: the first Newton step is
`3 - 0/1 = 3`, within tolerance `1`, so the solver converges to `3` with
count `1`. -/
theorem newton_step_convergence_witness :
    (0 : ℚ) < 1 ∧
    newtons_method (fun _ : ℚ => (0 : ℚ)) (fun _ : ℚ => (1 : ℚ)) 3 1 5 1 [] =
      Outcome.converged 3 1 := by
  have h := newton_step_convergence (fun _ : ℚ => (0 : ℚ)) (fun _ : ℚ => (1 : ℚ))
    1 1 3 0 4 (by norm_num) (by norm_num) (by norm_num)
  have h1 : attemptAux (fun _ : ℚ => (0 : ℚ)) (fun _ : ℚ => (1 : ℚ)) 1 1 3 0 5 =
      InnerResult.converged 3 1 := by
    have h0 := h.1
    norm_num at h0
    exact h0
  exact ⟨by norm_num, h.2 3 5 [] 3 1 h1⟩

/-- C2: an attempt that exhausts `max_iterations` without convergence or
degeneracy makes the solver return `MaxIterationsReached` carrying the
last computed guess and iteration count exactly `max_iterations`; in
particular with `max_iterations = 1` and a non-converging, non-degenerate
first step the count is exactly 1. -/
theorem newton_max_iterations
    (func dfunc : ℚ → ℚ) (x0 tol thr : ℚ) (m : ℕ) (inputs : List (Option ℚ)) :
    (∀ g, attemptAux func dfunc tol thr x0 0 m = InnerResult.exhausted g →
      newtons_method func dfunc x0 tol m thr inputs =
        Outcome.maxIterationsReached g m) ∧
    (¬ |dfunc x0| < thr →
      ¬ |(x0 - func x0 / dfunc x0) - x0| < tol →
      newtons_method func dfunc x0 tol 1 thr inputs =
        Outcome.maxIterationsReached (x0 - func x0 / dfunc x0) 1) := by
  constructor
  · intro g h
    exact newtons_method_of_exhausted func dfunc x0 tol m thr inputs g h
  · intro hnd hnc
    apply newtons_method_of_exhausted
    simp only [attemptAux]
    rw [if_neg hnd, if_neg hnc]

/-- C2 witness: `f = 1`, `f' = 1`, guess `0`, tolerance `1`, one
iteration: the step goes to `-1`, does not converge, and the solver
returns `MaxIterationsReached` with root `-1` and count exactly 1. -/
theorem newton_max_iterations_witness :
    (¬ |(1 : ℚ)| < 1) ∧
    newtons_method (fun _ : ℚ => (1 : ℚ)) (fun _ : ℚ => (1 : ℚ)) 0 1 1 1 [] =
      Outcome.maxIterationsReached (-1) 1 := by
  have h := (newton_max_iterations (fun _ : ℚ => (1 : ℚ)) (fun _ : ℚ => (1 : ℚ))
    0 1 1 1 []).2 (by norm_num) (by norm_num)
  norm_num at h
  exact ⟨by norm_num, h⟩

/-- C3: when an attempt hits a degenerate derivative and the caller
supplies a replacement guess that parses, the solver restarts as a fresh
run from the replacement with the same `max_iterations` and the attempt
counter back at zero: the cap bounds each attempt separately. -/
theorem newton_restart_resets_counter
    (func dfunc : ℚ → ℚ) (x0 tol thr g g2 : ℚ) (m : ℕ) (rest : List (Option ℚ))
    (hdeg : attemptAux func dfunc tol thr x0 0 m = InnerResult.degenerate g) :
    newtons_method func dfunc x0 tol m thr (some g2 :: rest) =
      newtons_method func dfunc g2 tol m thr rest :=
  (newtons_method_of_degenerate func dfunc x0 tol m thr g g2 rest hdeg).2.2

/-- C3 witness: `f' = 0` is degenerate at the initial guess `0`; with
replacement `5` the solver equals a fresh run from `5` with the full
iteration budget. -/
theorem newton_restart_resets_counter_witness :
    attemptAux (fun _ : ℚ => (0 : ℚ)) (fun _ : ℚ => (0 : ℚ)) 1 1 0 0 3 =
      InnerResult.degenerate 0 ∧
    newtons_method (fun _ : ℚ => (0 : ℚ)) (fun _ : ℚ => (0 : ℚ)) 0 1 3 1 [some 5] =
      newtons_method (fun _ : ℚ => (0 : ℚ)) (fun _ : ℚ => (0 : ℚ)) 5 1 3 1 [] := by
  have hdeg : attemptAux (fun _ : ℚ => (0 : ℚ)) (fun _ : ℚ => (0 : ℚ)) 1 1 0 0 3 =
      InnerResult.degenerate 0 := by
    norm_num [attemptAux]
  exact ⟨hdeg,
    newton_restart_resets_counter (fun _ : ℚ => (0 : ℚ)) (fun _ : ℚ => (0 : ℚ))
      0 1 1 0 5 3 [] hdeg⟩

/-- C4 counterexample: with the non-positive tolerance `0` the solver
does not reject the configuration; it runs the iteration and returns the
ordinary outcome `MaxIterationsReached 0 3` (there is no configuration
error in the code at all). -/
theorem newton_runs_with_nonpositive_tolerance :
    newtons_method (fun x : ℚ => x) (fun _ : ℚ => (1 : ℚ)) 1 0 3 1 [] =
      Outcome.maxIterationsReached 0 3 := by
  apply newtons_method_of_exhausted
  norm_num [attemptAux]

/-- C4 amended: the solver performs no configuration validation.  A zero
iteration cap immediately yields `MaxIterationsReached` with the initial
guess and count 0, and a non-positive tolerance makes the convergence
test unsatisfiable, so no attempt ever converges — but no configuration
is ever rejected. -/
theorem newton_no_config_validation
    (func dfunc : ℚ → ℚ) (x0 tol thr : ℚ) (inputs : List (Option ℚ)) :
    newtons_method func dfunc x0 tol 0 thr inputs =
      Outcome.maxIterationsReached x0 0 ∧
    (tol ≤ 0 → ∀ (n i : ℕ) (g r : ℚ) (k : ℕ),
      attemptAux func dfunc tol thr g i n ≠ InnerResult.converged r k) := by
  constructor
  · exact newtons_method_of_exhausted func dfunc x0 tol 0 thr inputs x0
      (by simp [attemptAux])
  · intro htol n
    induction n with
    | zero => intro i g r k; simp [attemptAux]
    | succ n ih =>
      intro i g r k
      simp only [attemptAux]
      split
      · simp
      · split
        · rename_i hcv
          exact absurd (lt_of_lt_of_le hcv htol) (not_lt.2 (abs_nonneg _))
        · exact ih (i + 1) (g - func g / dfunc g) r k

/-- C4 amended witness: with tolerance `0` the attempt starting at `5`
never converges, and a zero iteration cap returns the initial guess. -/
theorem newton_no_config_validation_witness :
    (0 : ℚ) ≤ 0 ∧
    newtons_method (fun x : ℚ => x) (fun _ : ℚ => (1 : ℚ)) 7 0 0 1 [] =
      Outcome.maxIterationsReached 7 0 ∧
    attemptAux (fun x : ℚ => x) (fun _ : ℚ => (1 : ℚ)) 0 1 5 0 3 ≠
      InnerResult.converged 0 1 := by
  have h := newton_no_config_validation (fun x : ℚ => x) (fun _ : ℚ => (1 : ℚ))
    7 0 1 []
  exact ⟨le_refl 0, h.1, h.2 (le_refl 0) 3 0 5 0 1⟩

/-- C8: the post-processing of `main` reports the real component alone
exactly when the imaginary component's magnitude is strictly below
`1e-10`, and leaves the complex root unchanged otherwise. -/
theorem negligible_imag_collapsing (re im : ℚ) :
    (|im| < 1 / 10 ^ 10 → postprocess_root (re, im) = Sum.inl re) ∧
    (1 / 10 ^ 10 ≤ |im| → postprocess_root (re, im) = Sum.inr (re, im)) := by
  constructor
  · intro h
    simp only [postprocess_root]
    rw [if_pos h]
  · intro h
    simp only [postprocess_root]
    rw [if_neg (not_lt.2 h)]

/-- C8 witness: an imaginary part of `1e-12` collapses to the real part,
one of `1e-9` does not. -/
theorem negligible_imag_collapsing_witness :
    postprocess_root (1, 1 / 10 ^ 12) = Sum.inl 1 ∧
    postprocess_root (1, 1 / 10 ^ 9) = Sum.inr (1, 1 / 10 ^ 9) :=
  ⟨(negligible_imag_collapsing 1 (1 / 10 ^ 12)).1
      (by rw [abs_of_nonneg (show (0 : ℚ) ≤ 1 / 10 ^ 12 by norm_num)]; norm_num),
   (negligible_imag_collapsing 1 (1 / 10 ^ 9)).2
      (by rw [abs_of_nonneg (show (0 : ℚ) ≤ 1 / 10 ^ 9 by norm_num)]; norm_num)⟩

/-- C9: when an attempt hits a degenerate derivative and the caller
supplies no replacement (empty input) or an unparseable one (`none`), the
solver returns the ordinary terminal value `aborted` — a constructor of
`Outcome` carrying no root, not an exception. -/
theorem degenerate_abort
    (func dfunc : ℚ → ℚ) (x0 tol thr g : ℚ) (m : ℕ) (rest : List (Option ℚ))
    (hdeg : attemptAux func dfunc tol thr x0 0 m = InnerResult.degenerate g) :
    newtons_method func dfunc x0 tol m thr [] = Outcome.aborted ∧
    newtons_method func dfunc x0 tol m thr (none :: rest) = Outcome.aborted :=
  ⟨(newtons_method_of_degenerate func dfunc x0 tol m thr g 0 rest hdeg).1,
   (newtons_method_of_degenerate func dfunc x0 tol m thr g 0 rest hdeg).2.1⟩

/-- C9 witness: `f' = 0` is degenerate at the initial guess; with no
replacement or an unparseable one the solver returns `aborted`. -/
theorem degenerate_abort_witness :
    newtons_method (fun _ : ℚ => (0 : ℚ)) (fun _ : ℚ => (0 : ℚ)) 0 1 3 1 [] =
      Outcome.aborted ∧
    newtons_method (fun _ : ℚ => (0 : ℚ)) (fun _ : ℚ => (0 : ℚ)) 0 1 3 1 [none] =
      Outcome.aborted := by
  have h := degenerate_abort (fun _ : ℚ => (0 : ℚ)) (fun _ : ℚ => (0 : ℚ))
    0 1 1 0 3 [] (by norm_num [attemptAux])
  exact ⟨h.1, h.2⟩

/-- `Real.log 10` is strictly greater than 1 (since `e < 10`), so in
particular nonzero; this is what separates the two log bindings. -/
theorem one_lt_log_ten : 1 < Real.log 10 := by
  rw [Real.lt_log_iff_exp_lt (by norm_num : (0 : ℝ) < 10)]
  have h := Real.exp_one_lt_d9
  linarith

/-- C5: the compiled numeric functions bind the two reserved log names
separately and correctly: a formula `ln(g)` evaluates to the natural
logarithm of `g`'s value, a formula `log(g)` to the base-10 logarithm,
and the two bindings genuinely differ. -/
theorem log_bindings_correct :
    (∀ (g : Expr) (x : ℝ), eval (parseLn g) x = Real.log (eval g x)) ∧
    (∀ (g : Expr) (x : ℝ), eval (parseLog g) x = Real.logb 10 (eval g x)) ∧
    eval (parseLn (Expr.const 10)) 0 ≠ eval (parseLog (Expr.const 10)) 0 := by
  have hln : ∀ (g : Expr) (x : ℝ), eval (parseLn g) x = Real.log (eval g x) := by
    intro g x
    rfl
  have hlog : ∀ (g : Expr) (x : ℝ), eval (parseLog g) x = Real.logb 10 (eval g x) := by
    intro g x
    simp only [parseLog, eval, my_log, Rat.cast_ofNat]
    exact Real.log_div_log
  refine ⟨hln, hlog, ?_⟩
  rw [hln, hlog]
  simp only [eval, Rat.cast_ofNat]
  rw [Real.logb_self_eq_one (by norm_num : (1 : ℝ) < 10)]
  exact ne_of_gt one_lt_log_ten

/-- C6: for every subexpression `g`, differentiating the natural-log node
applied to `g` evaluates to `g'(x)/g(x)`, and differentiating the
base-10-log node applied to `g` evaluates to `g'(x)/(g(x) · ln 10)`. -/
theorem log_differentiation_correct :
    (∀ (g : Expr) (x : ℝ),
      eval (diff (parseLn g)) x = eval (diff g) x / eval g x) ∧
    (∀ (g : Expr) (x : ℝ),
      eval (diff (parseLog g)) x = eval (diff g) x / (eval g x * Real.log 10)) := by
  have hL : Real.log 10 ≠ 0 := ne_of_gt (lt_trans zero_lt_one one_lt_log_ten)
  constructor
  · intro g x
    rfl
  · intro g x
    simp only [parseLog, diff, eval, my_log, Rat.cast_zero, Rat.cast_ofNat,
      zero_div, mul_zero, sub_zero]
    rw [div_mul_eq_mul_div, div_div, ← mul_assoc,
      mul_div_mul_right _ _ hL]

/-- C10: with a positive derivative threshold, the solver with a guarded
Newton-step division (returning `none` on a zero divisor) agrees with the
actual solver wrapped in `some`: the division-by-zero branch is
unreachable, since every executed division is preceded by the check
`|f'(guess)| ≥ derivative_threshold > 0`. -/
theorem newton_division_safe
    (func dfunc : ℚ → ℚ) (x0 tol thr : ℚ) (m : ℕ) (inputs : List (Option ℚ))
    (hthr : 0 < thr) :
    newtons_method_checked func dfunc x0 tol m thr inputs =
      some (newtons_method func dfunc x0 tol m thr inputs) := by
  induction inputs generalizing x0 with
  | nil =>
    cases hA : attemptAux func dfunc tol thr x0 0 m <;>
      simp [newtons_method_checked, newtons_method,
        attemptAuxChecked_eq func dfunc tol thr hthr, hA]
  | cons a rest ih =>
    cases a with
    | none =>
      cases hA : attemptAux func dfunc tol thr x0 0 m <;>
        simp [newtons_method_checked, newtons_method,
          attemptAuxChecked_eq func dfunc tol thr hthr, hA]
    | some g2 =>
      cases hA : attemptAux func dfunc tol thr x0 0 m <;>
        simp [newtons_method_checked, newtons_method,
          attemptAuxChecked_eq func dfunc tol thr hthr, hA, ih]

/-- C10 witness: a concrete run (with a degenerate restart on the way) in
which the guarded solver returns `some` of the unguarded result. -/
theorem newton_division_safe_witness :
    (0 : ℚ) < 1 ∧
    newtons_method_checked (fun _ : ℚ => (0 : ℚ)) (fun _ : ℚ => (1 : ℚ))
        3 1 5 1 [some 2] =
      some (newtons_method (fun _ : ℚ => (0 : ℚ)) (fun _ : ℚ => (1 : ℚ))
        3 1 5 1 [some 2]) :=
  ⟨by norm_num,
   newton_division_safe (fun _ : ℚ => (0 : ℚ)) (fun _ : ℚ => (1 : ℚ))
     3 1 1 5 [some 2] (by norm_num)⟩

end Newton
